import Mathlib

/-!
Verification development for the `whatcable` data-query and card-rendering
layer (`src/utils/cableData.ts` and `src/scripts/cableCard.ts`).

The TypeScript code is shallowly embedded as follows:
* JavaScript numbers are modelled as `ℚ` (JSON numbers; the data in scope is
  exact small decimals, so rational arithmetic is a faithful idealization).
* JavaScript strings are Lean `String`s; `toLowerCase`, `includes`,
  `endsWith` and the concrete regex searches of the code are implemented
  character-by-character on `String.data` (ASCII scope: the data and query
  alphabets used by the site are ASCII).
* `fs` reads and `JSON.parse` are modelled by a store function
  `String → Option (List (String × Option CableSpec))`: a category slug maps
  to `none` (directory read failure) or a file listing, where each file is a
  name paired with `none` (read/parse failure, i.e. a malformed file) or the
  parsed record.
* `console.error` calls are counted: loaders return the number of logged
  errors alongside their value.
-/

/-! ## Data model (the TypeScript interfaces of `cableData.ts`) -/

structure ProtocolSpec where
  version : String
  data_rate : String
  data_rate_mbps : ℚ
  power_delivery : Option String
  video_support : Option (List String)
  features : List String
  cable_requirements : Option String
  max_length : Option String
deriving DecidableEq

structure ConnectorSpec where
  pins : ℚ
  rows : Option ℚ
  pitch : Option ℚ
  width : ℚ
  height : ℚ
  depth : Option ℚ
  reversible : Bool
  shape : String
  unit : String
deriving DecidableEq

structure ElectricalSpec where
  voltage_max : Option ℚ
  current_max : Option ℚ
  power_max : Option ℚ
  impedance : Option String
deriving DecidableEq

structure CompatibilitySpec where
  backwards : List String
  forwards : List String
  adapters_to : List String
  adapters_from : List String
deriving DecidableEq

structure SourceRef where
  name : String
  url : Option String
  access_date : Option String
  notes : Option String
deriving DecidableEq

structure CableSpec where
  type : String
  full_name : String
  standard_body : String
  common_names : List String
  protocols : List (String × ProtocolSpec)
  connector : ConnectorSpec
  electrical : ElectricalSpec
  compatibility : CompatibilitySpec
  common_devices : List String
  confusion_points : List String
  buying_guide : String
  notes : String
  sources : Option (List SourceRef)
  last_updated : String
deriving DecidableEq

structure CableCategory where
  name : String
  slug : String
  description : String
  cables : List CableSpec
deriving DecidableEq

/-! ## String utilities (models of the JavaScript string primitives used) -/

/-- Model of JavaScript `String.prototype.toLowerCase` (ASCII scope). -/
def jsToLower (s : String) : String :=
  ⟨s.data.map Char.toLower⟩

/-- Substring scan: `true` iff `needle` occurs contiguously in the list. -/
def hasSubstr (needle : List Char) : List Char → Bool
  | [] => needle.isEmpty
  | c :: rest => needle.isPrefixOf (c :: rest) || hasSubstr needle rest

/-- Model of JavaScript `haystack.includes(needle)`. -/
def jsIncludes (haystack needle : String) : Bool :=
  hasSubstr needle.data haystack.data

/-- Model of JavaScript `s.endsWith(suffix)`. -/
def jsEndsWith (s suffix : String) : Bool :=
  List.isSuffixOf suffix.data s.data

/-- Characters matched by the JavaScript regex class `\s` (ASCII scope plus
NBSP; the full Unicode space class is irrelevant to the data in scope). -/
def jsIsSpace (c : Char) : Bool :=
  c == ' ' || c == '\t' || c == '\n' || c == '\r' || c == '\x0b' || c == '\x0c' || c == '\xa0'

/-- Value of a digit list, most significant first (model of `parseInt(_, 10)`
on the capture of a `\d+` group). -/
def digitsToNat (ds : List Char) : Nat :=
  ds.foldl (fun acc c => 10 * acc + (c.toNat - '0'.toNat)) 0

/-! ## The regex searches of the code

Each regex of the source is a concrete pattern over digits, optional dot,
whitespace and a unit; for these patterns greedy matching never needs to
backtrack (after a maximal digit run, a digit can satisfy neither `\s*` nor
the unit, and after a consumed dot the unit can never start at the dot), so
each is implemented as a deterministic leftmost scan: try to match at every
position, left to right, exactly as the regex engine does. -/

/-- Attempt `(\d+)\s*W` (case-insensitive) anchored at the head of the list;
returns the captured integer. -/
def wattAt (l : List Char) : Option Nat :=
  let ds := l.takeWhile Char.isDigit
  if ds.isEmpty then none
  else
    match (l.drop ds.length).dropWhile jsIsSpace with
    | c :: _ => if c == 'w' || c == 'W' then some (digitsToNat ds) else none
    | [] => none

/-- First match of `/(\d+)\s*W/i`, as used by `getNormalizedPowerWatts`. -/
def findWatt : List Char → Option Nat
  | [] => none
  | c :: rest =>
    match wattAt (c :: rest) with
    | some n => some n
    | none => findWatt rest

/-- Attempt the number shape `\d+\.?\d*` at the head of the list; returns the
integer formed by all captured digits, the number of fractional digits, and
the remaining input.  `parseFloat` of the capture is `digits / 10 ^ fracLen`. -/
def numAt (l : List Char) : Option (Nat × Nat × List Char) :=
  let ds := l.takeWhile Char.isDigit
  if ds.isEmpty then none
  else
    match l.drop ds.length with
    | '.' :: r2 =>
      let fs := r2.takeWhile Char.isDigit
      some (digitsToNat (ds ++ fs), fs.length, r2.drop fs.length)
    | r1 => some (digitsToNat ds, 0, r1)

/-- Case-insensitive alternation `(gbps|mbps|gb\/s|mb\/s)` anchored at the
head; returns the lower-cased first letter of the unit. -/
def unitAt (l : List Char) : Option Char :=
  if List.isPrefixOf ['g','b','p','s'] (l.map Char.toLower) then some 'g'
  else if List.isPrefixOf ['m','b','p','s'] (l.map Char.toLower) then some 'm'
  else if List.isPrefixOf ['g','b','/','s'] (l.map Char.toLower) then some 'g'
  else if List.isPrefixOf ['m','b','/','s'] (l.map Char.toLower) then some 'm'
  else none

/-- Attempt `(\d+\.?\d*)\s*(gbps|mbps|gb\/s|mb\/s)` (case-insensitive) at the
head; returns the extracted value normalized to Mbps (`value * 1000` when the
unit starts with "g").  The rational is built as a single `mkRat` of the exact
value, which is what the floating-point expression of the source computes on
the magnitudes in scope. -/
def rateAt (l : List Char) : Option ℚ :=
  match numAt l with
  | none => none
  | some (n, fracLen, rest) =>
    match unitAt (rest.dropWhile jsIsSpace) with
    | some u => some (if u == 'g' then mkRat (n * 1000) (10 ^ fracLen) else mkRat n (10 ^ fracLen))
    | none => none

/-- First match of the data-rate pattern of `searchCables`, already
normalized to Mbps. -/
def extractRate : List Char → Option ℚ
  | [] => none
  | c :: rest =>
    match rateAt (c :: rest) with
    | some q => some q
    | none => extractRate rest

/-- Attempt `(\d+\.?\d*)\s*w` (case-insensitive) at the head. -/
def powerAt (l : List Char) : Option ℚ :=
  match numAt l with
  | none => none
  | some (n, fracLen, rest) =>
    match rest.dropWhile jsIsSpace with
    | c :: _ => if c == 'w' || c == 'W' then some (mkRat n (10 ^ fracLen)) else none
    | [] => none

/-- First match of the power pattern of `searchCables`. -/
def extractPower : List Char → Option ℚ
  | [] => none
  | c :: rest =>
    match powerAt (c :: rest) with
    | some q => some q
    | none => extractPower rest

/-! ## `cableData.ts`: loaders, catalog, derived metrics, slug, search -/

/-- Sorted insertion by the `type` field.  `Array.prototype.sort` with the
comparator `a.type.localeCompare(b.type)`; `localeCompare` is modelled as
code-point order (the `type` identifiers in scope are plain ASCII). -/
def insertByType (c : CableSpec) : List CableSpec → List CableSpec
  | [] => [c]
  | h :: t => if c.type < h.type then c :: h :: t else h :: insertByType c t

/-- Sort a record list by `type` ascending. -/
def sortByType (l : List CableSpec) : List CableSpec :=
  l.foldr insertByType []

/-- The `files.map(file => JSON.parse(readFileSync(file)))` loop: the first
malformed file throws, so the whole map yields `none` as soon as any entry
failed to read or parse. -/
def parseAll : List (String × Option CableSpec) → Option (List CableSpec)
  | [] => some []
  | (_, none) :: _ => none
  | (_, some c) :: rest => (parseAll rest).map (fun cs => c :: cs)

/-- A model of the file system under `DATA_DIR`: a category slug maps to
`none` (unreadable directory) or to its file listing. -/
def Store : Type :=
  String → Option (List (String × Option CableSpec))

/-- Embedding of `loadCategoryData`.  Returns the loaded records together
with the number of `console.error` logs (0 or 1).  The directory listing is
filtered to `.json` files; each is read and parsed inside the single
`try`, so one malformed file aborts the whole load into the `catch`, which
logs once and returns the empty list; an unreadable directory does the same. -/
def loadCategoryData (store : Store) (category : String) : List CableSpec × Nat :=
  match store category with
  | none => ([], 1)
  | some files =>
    match parseAll (files.filter (fun f => jsEndsWith f.1 ".json")) with
    | none => ([], 1)
    | some cables => (sortByType cables, 0)

/-- The fixed category registry of `getAllCategories`. -/
def categoryRegistry : List (String × String × String) :=
  [ ("USB", "usb", "USB-A, USB-B, USB-C, Mini, and Micro variants. The most confusing connector family."),
    ("Video", "video", "HDMI, DisplayPort, DVI, VGA, and Thunderbolt video connections."),
    ("Audio", "audio", "3.5mm, 6.35mm, XLR, RCA, and optical audio connectors."),
    ("Power", "power", "Barrel jacks, IEC, NEMA, and regional power plugs.") ]

/-- Embedding of `getAllCategories`: each registry entry populated by the
loader (the error count of the loader is a log side effect, dropped here). -/
def getAllCategories (store : Store) : List CableCategory :=
  categoryRegistry.map (fun e =>
    { name := e.1, slug := e.2.1, description := e.2.2,
      cables := (loadCategoryData store e.2.1).1 })

/-- Embedding of `getMaxDataRate`: `Math.max(...rates, 0)` over the protocol
variants' `data_rate_mbps` fields, written as a fold of the binary max with
floor 0. -/
def getMaxDataRate (cable : CableSpec) : ℚ :=
  (cable.protocols.map (fun p => p.2.data_rate_mbps)).foldl max 0

/-- Embedding of `getMaxPower`. -/
def getMaxPower (cable : CableSpec) : Option ℚ :=
  cable.electrical.power_max

/-- The slug expression `type.toLowerCase().replace(/[^a-z0-9]/g, '-')`,
shared verbatim by `getCableBySlug` and the card link of `createCableCard`:
lower-case, then each character outside `[a-z0-9]` becomes one `-`. -/
def slugify (s : String) : String :=
  ⟨(jsToLower s).data.map (fun c =>
    if ('a' ≤ c ∧ c ≤ 'z') ∨ ('0' ≤ c ∧ c ≤ '9') then c else '-')⟩

/-- Linear reverse lookup of `getCableBySlug` over the category catalog. -/
def getCableBySlug (store : Store) (slug : String) : Option (CableSpec × String) :=
  (getAllCategories store).findSome? (fun cat =>
    (cat.cables.find? (fun cable => slugify cable.type == slug)).map
      (fun cable => (cable, cat.slug)))

/-- The parsing loop of `getNormalizedPowerWatts` over the protocol variants:
running maximum (starting at 0) of the first `(\d+)\s*W` match of each
`power_delivery` string. -/
def powerFromProtocols (cable : CableSpec) : ℚ :=
  cable.protocols.foldl (fun acc pr =>
    match pr.2.power_delivery with
    | none => acc
    | some pd =>
      match findWatt pd.data with
      | none => acc
      | some w => if acc < (w : ℚ) then (w : ℚ) else acc) 0

/-- Embedding of `getNormalizedPowerWatts`: a truthy (present and nonzero)
`electrical.power_max` is returned as is; otherwise the protocol text scan
runs, and its maximum is returned only when strictly positive. -/
def getNormalizedPowerWatts (cable : CableSpec) : Option ℚ :=
  match cable.electrical.power_max with
  | some p =>
    if p ≠ 0 then some p
    else if 0 < powerFromProtocols cable then some (powerFromProtocols cable) else none
  | none =>
    if 0 < powerFromProtocols cable then some (powerFromProtocols cable) else none

/-- The `textMatch` disjunction of `searchCables`: the lowered search term as
a substring of type, full name, any alias, any common device, any protocol
key, any protocol version, or any protocol feature. -/
def searchTextMatch (cable : CableSpec) (searchTerm : String) : Bool :=
  jsIncludes (jsToLower cable.type) searchTerm ||
  jsIncludes (jsToLower cable.full_name) searchTerm ||
  cable.common_names.any (fun n => jsIncludes (jsToLower n) searchTerm) ||
  cable.common_devices.any (fun d => jsIncludes (jsToLower d) searchTerm) ||
  cable.protocols.any (fun pr => jsIncludes (jsToLower pr.1) searchTerm) ||
  cable.protocols.any (fun pr =>
    jsIncludes (jsToLower pr.2.version) searchTerm ||
    pr.2.features.any (fun f => jsIncludes (jsToLower f) searchTerm))

/-- The `rateMatch` branch: guarded by JavaScript truthiness of
`targetRateMbps` (`none` and an extracted 0 are both falsy). -/
def rateMatchB (target : Option ℚ) (cable : CableSpec) : Bool :=
  match target with
  | none => false
  | some t =>
    if t = 0 then false
    else cable.protocols.any (fun pr => decide (t ≤ pr.2.data_rate_mbps))

/-- The `powerMatchResult` branch: guarded by truthiness of `targetPower` and
of the declared `electrical.power_max` (absent and 0 are both falsy). -/
def powerMatchB (target : Option ℚ) (cable : CableSpec) : Bool :=
  match target with
  | none => false
  | some t =>
    if t = 0 then false
    else
      match cable.electrical.power_max with
      | none => false
      | some p => if p = 0 then false else decide (t ≤ p)

/-- The filter of `searchCables` applied to an explicit record list. -/
def searchCablesOn (allCables : List CableSpec) (query : String) : List CableSpec :=
  allCables.filter (fun cable =>
    searchTextMatch cable (jsToLower query) ||
    rateMatchB (extractRate query.data) cable ||
    powerMatchB (extractPower query.data) cable)

/-- Embedding of `searchCables`: flatten the catalog, then filter. -/
def searchCables (store : Store) (query : String) : List CableSpec :=
  searchCablesOn ((getAllCategories store).flatMap (fun cat => cat.cables)) query

/-! ## `cableCard.ts`: client record shape and card rendering -/

structure ClientCable where
  type : String
  full_name : String
  categorySlug : String
  categoryName : String
  max_rate_mbps : ℚ
  max_power : Option ℚ
  pins : ℚ
  width : ℚ
  height : ℚ
  reversible : Bool
  common_devices : List String
  confusion_points : List String
  notes : String
deriving DecidableEq

structure CreateCardOptions where
  highlightTerm : Option String
deriving DecidableEq

/-- Drop trailing `'0'` characters. -/
def stripTrailingZeros (l : List Char) : List Char :=
  (l.reverse.dropWhile (fun c => c == '0')).reverse

/-- Left-pad a digit list with `'0'` to length `k`. -/
def padZerosTo (k : Nat) (l : List Char) : List Char :=
  List.replicate (k - l.length) '0' ++ l

/-- Decimal rendering of a JavaScript number interpolated into a template
literal: exact shortest decimal for rationals with a terminating expansion
(every value arising from the JSON data and the arithmetic in scope); other
rationals, which cannot arise from JSON numbers, render as a fraction. -/
def qToStr (q : ℚ) : String :=
  let sign := if q < 0 then "-" else ""
  let n := q.num.natAbs
  let d := q.den
  match (List.range 41).find? (fun k => 10 ^ k % d == 0) with
  | some k =>
    let m := n * 10 ^ k / d
    let ip := m / 10 ^ k
    let fp := m % 10 ^ k
    let fracDigits := stripTrailingZeros (padZerosTo k (Nat.toDigits 10 fp))
    sign ++ toString ip ++ (if fracDigits.isEmpty then "" else "." ++ (⟨fracDigits⟩ : String))
  | none => sign ++ toString n ++ "/" ++ toString d

/-- Embedding of `formatDataRate`: values at or above 1000 Mbps are shown in
Gbps (plain division by 1000), the rest in Mbps. -/
def formatDataRate (mbps : ℚ) : String :=
  if 1000 ≤ mbps then qToStr (mbps / 1000) ++ " Gbps"
  else qToStr mbps ++ " Mbps"

/-- One character of the DOM-based `escapeHtml` (a text node serialized via
`innerHTML` escapes exactly the markup-significant characters). -/
def escChar (c : Char) : List Char :=
  if c == '&' then ['&', 'a', 'm', 'p', ';']
  else if c == '<' then ['&', 'l', 't', ';']
  else if c == '>' then ['&', 'g', 't', ';']
  else [c]

/-- Embedding of `escapeHtml` (`div.textContent = text; div.innerHTML`). -/
def escapeHtml (text : String) : String :=
  ⟨text.data.foldr (fun c acc => escChar c ++ acc) []⟩

/-- Case-insensitive prefix test (the anchored step of a `gi` literal
pattern). -/
def prefixCI : List Char → List Char → Bool
  | [], _ => true
  | _ :: _, [] => false
  | p :: ps, c :: cs => (Char.toLower p == Char.toLower c) && prefixCI ps cs

/-- The opening highlight marker emitted by `highlightText`. -/
def markOpen : String :=
  "<mark class=\"bg-warning/30 text-foreground rounded px-0.5\">"

/-- The closing highlight marker. -/
def markClose : String :=
  "</mark>"

/-- The global case-insensitive literal replacement of `highlightText`:
leftmost non-overlapping matches of `term`, each wrapped in the marker with
`$1` the matched text itself.  The fuel argument only bounds the recursion;
every step consumes at least one character (the caller guarantees `term` is
nonempty), so fuel equal to the input length never runs out. -/
def replaceCIAux (term : List Char) : Nat → List Char → List Char
  | _, [] => []
  | 0, l => l
  | f + 1, c :: rest =>
    if prefixCI term (c :: rest) then
      markOpen.data ++ (c :: rest).take term.length ++ markClose.data
        ++ replaceCIAux term f ((c :: rest).drop term.length)
    else c :: replaceCIAux term f rest

/-- Embedding of `highlightText`.  An absent or empty term, or empty text,
returns the escaped text unchanged (`!term || !text`).  Otherwise the term's
regex metacharacters are escaped before compilation, so the compiled `gi`
pattern matches the term literally and case-insensitively over the escaped
text. -/
def highlightText (text : String) (term : Option String) : String :=
  match term with
  | none => escapeHtml text
  | some t =>
    if t = "" ∨ text = "" then escapeHtml text
    else ⟨replaceCIAux t.data (escapeHtml text).data.length (escapeHtml text).data⟩

/-- Embedding of `isLegacy`: the notes text is probed for "obsolete",
"legacy" and "phased out"; the confusion points for "obsolete" and
"deprecated" (all case-insensitively). -/
def isLegacy (cable : ClientCable) : Bool :=
  jsIncludes (jsToLower cable.notes) "obsolete" ||
  jsIncludes (jsToLower cable.notes) "legacy" ||
  jsIncludes (jsToLower cable.notes) "phased out" ||
  cable.confusion_points.any (fun p =>
    jsIncludes (jsToLower p) "obsolete" || jsIncludes (jsToLower p) "deprecated")

/-- The badge list built by `createCableCard` (category badge, then the
optional Reversible and Legacy badges, in push order). -/
def cardBadges (cable : ClientCable) (legacy : Bool) : List String :=
  ["<span class=\"badge badge-muted\">" ++ escapeHtml cable.categoryName ++ "</span>"]
    ++ (if cable.reversible then ["<span class=\"badge badge-reversible\">Reversible</span>"] else [])
    ++ (if legacy then ["<span class=\"badge badge-muted\">Legacy</span>"] else [])

/-- The `commonUsesHtml` fragment: up to 3 device tags plus an overflow
counter, empty when there are no devices. -/
def cardCommonUses (cable : ClientCable) : String :=
  if cable.common_devices.isEmpty then ""
  else
    "\n      <div class=\"mb-4\">\n        <p class=\"text-xs mb-2\">Common Uses</p>\n        <div class=\"flex flex-wrap gap-1\">\n          "
      ++ String.join ((cable.common_devices.take 3).map (fun device =>
            "<span class=\"tag text-xs\">" ++ escapeHtml device ++ "</span>"))
      ++ "\n          "
      ++ (if 3 < cable.common_devices.length then
            "<span class=\"tag-muted text-xs\">+" ++ toString (cable.common_devices.length - 3) ++ " more</span>"
          else "")
      ++ "\n        </div>\n      </div>\n    "

/-- The `confusionWarning` fragment: only the first confusion point is
surfaced. -/
def cardConfusionWarning (cable : ClientCable) : String :=
  match cable.confusion_points with
  | [] => ""
  | p :: _ =>
    "<div class=\"mb-4 alert-warning\">\n           <p class=\"text-warning-foreground text-sm\">"
      ++ escapeHtml p ++ "</p>\n         </div>"

/-- The `powerHtml` fragment: `cable.max_power ? _ : ''`, so both an absent
and a zero declared power produce the empty fragment. -/
def cardPowerHtml (maxPower : Option ℚ) : String :=
  match maxPower with
  | none => ""
  | some p =>
    if p = 0 then ""
    else
      "<div>\n         <p class=\"text-xs mb-1\">Max Power</p>\n         <p class=\"text-foreground font-medium\">"
        ++ qToStr p ++ "W</p>\n       </div>"

/-- Embedding of `createCableCard`: the full template literal of the source,
with the badge list joined by newline plus indentation. -/
def createCableCard (cable : ClientCable) (options : Option CreateCardOptions) : String :=
  let term := match options with
    | none => none
    | some o => o.highlightTerm
  "\n    <div class=\"group relative card-interactive\">\n      <a href=\"/"
    ++ cable.categorySlug ++ "/" ++ slugify cable.type
    ++ "\" class=\"block p-6\" aria-label=\"View detailed specifications for "
    ++ escapeHtml cable.type
    ++ "\">\n        <!\x2d- Badges -\x2d>\n        <div class=\"absolute top-4 right-4 flex gap-2\">\n          "
    ++ String.intercalate "\n          " (cardBadges cable (isLegacy cable))
    ++ "\n        </div>\n\n        <!\x2d- Header -\x2d>\n        <div class=\"mt-6 mb-4\">\n          <h3 class=\"text-xl font-semibold text-foreground mb-1\">"
    ++ highlightText cable.type term
    ++ "</h3>\n          <p class=\"text-sm\">"
    ++ highlightText cable.full_name term
    ++ "</p>\n        </div>\n\n        <!\x2d- Specs Grid -\x2d>\n        <div class=\"grid grid-cols-2 gap-4 mb-4\">\n          <div>\n            <p class=\"text-xs mb-1\">Max Speed</p>\n            <p class=\"text-foreground font-medium\">"
    ++ formatDataRate cable.max_rate_mbps
    ++ "</p>\n          </div>\n          "
    ++ cardPowerHtml cable.max_power
    ++ "\n        </div>\n\n        <!\x2d- Connector Info -\x2d>\n        <div class=\"mb-4\">\n          <p class=\"text-xs mb-1\">Connector</p>\n          <p class=\"text-foreground text-sm\">\n            "
    ++ qToStr cable.pins ++ " pins, " ++ qToStr cable.width ++ "×" ++ qToStr cable.height
    ++ "mm\n          </p>\n        </div>\n\n        <!\x2d- Common Uses -\x2d>\n        "
    ++ cardCommonUses cable
    ++ "\n\n        <!\x2d- Warning -\x2d>\n        "
    ++ cardConfusionWarning cable
    ++ "\n\n        <!\x2d- Footer -\x2d>\n        <div class=\"flex items-center gap-1 text-sm\">\n          <span class=\"group-hover:underline\">Learn more</span>\n          <span class=\"transition-transform group-hover:translate-x-0.5\">→</span>\n        </div>\n      </a>\n    </div>\n  "

/-! ## Concrete records used by counterexamples and witnesses -/

/-- A neutral connector geometry. -/
def defaultConnector : ConnectorSpec :=
  { pins := 4, rows := none, pitch := none, width := 12, height := 5,
    depth := none, reversible := false, shape := "rectangular", unit := "mm" }

/-- Electrical limits with every field absent. -/
def defaultElectrical : ElectricalSpec :=
  { voltage_max := none, current_max := none, power_max := none, impedance := none }

/-- Empty compatibility lists. -/
def defaultCompatibility : CompatibilitySpec :=
  { backwards := [], forwards := [], adapters_to := [], adapters_from := [] }

/-- A neutral protocol variant. -/
def baseProtocol : ProtocolSpec :=
  { version := "1.1", data_rate := "480 Mbps", data_rate_mbps := 480,
    power_delivery := none, video_support := none, features := [],
    cable_requirements := none, max_length := none }

/-- A neutral record. -/
def baseCable : CableSpec :=
  { type := "USB-A", full_name := "USB Type-A", standard_body := "USB-IF",
    common_names := [], protocols := [], connector := defaultConnector,
    electrical := defaultElectrical, compatibility := defaultCompatibility,
    common_devices := [], confusion_points := [], buying_guide := "",
    notes := "", sources := none, last_updated := "2024-01-01" }

/-- A neutral client-side record. -/
def baseClientCable : ClientCable :=
  { type := "USB-A", full_name := "USB Type-A", categorySlug := "usb",
    categoryName := "USB", max_rate_mbps := 480, max_power := none,
    pins := 4, width := 12, height := 5, reversible := false,
    common_devices := [], confusion_points := [], notes := "" }

/-- A store whose `usb` directory holds one well-formed and one malformed
JSON file. -/
def malformedStore : Store :=
  fun s => if s = "usb" then some [("a.json", some baseCable), ("bad.json", none)] else none

/-- A store whose `video` directory holds a single malformed JSON file. -/
def c1WitnessStore : Store :=
  fun s => if s = "video" then some [("x.json", none)] else none

/-- A record with a declared zero power and a protocol whose free text
carries a wattage. -/
def zeroPowerCable : CableSpec :=
  { baseCable with
    electrical := { defaultElectrical with power_max := some 0 },
    protocols := [("USB PD", { baseProtocol with power_delivery := some "50 W" })] }

/-- A record with a declared nonzero power. -/
def declaredPowerCable : CableSpec :=
  { baseCable with electrical := { defaultElectrical with power_max := some 60 } }

/-- A record with a single zero-rate protocol variant. -/
def zeroRateCable : CableSpec :=
  { baseCable with protocols := [("legacy mode", { baseProtocol with data_rate_mbps := 0 })] }

/-- A record with no declared power whose only hint of 100 W is a protocol
feature string. -/
def featurePowerCable : CableSpec :=
  { baseCable with
    type := "Magic", full_name := "Magic Cable",
    protocols := [("PD", { baseProtocol with data_rate_mbps := 1, features := ["100W fast charge"] })] }

/-- A record with a 5 Mbps variant and no text resembling a rate query. -/
def smallRateCable : CableSpec :=
  { baseCable with type := "Foo", full_name := "Foo", protocols := [("v", { baseProtocol with data_rate_mbps := 5 })] }

/-- A record with a 40 Gbps variant. -/
def fastCable : CableSpec :=
  { baseCable with
    type := "TB4", full_name := "Thunderbolt 4",
    protocols := [("USB4", { baseProtocol with data_rate_mbps := 40000 })] }

/-- A client record whose notes say "Deprecated" and nothing else legacy-like,
with no confusion points. -/
def deprecatedNotesCable : ClientCable :=
  { baseClientCable with notes := "Deprecated since 2015." }

/-- A record with a declared 240 W power. -/
def highPowerCable : CableSpec :=
  { baseCable with electrical := { defaultElectrical with power_max := some 240 } }

/-- A client record whose notes say "obsolete". -/
def obsoleteNotesCable : ClientCable :=
  { baseClientCable with notes := "Now obsolete." }

/-- A store with no readable category directory. -/
def emptyStore : Store :=
  fun _ => none


/-- The watt figures parsed from the protocol variants' `power_delivery`
strings, in variant order (the list whose running maximum the loop of
`getNormalizedPowerWatts` computes). -/
def parsedWatts (cable : CableSpec) : List ℚ :=
  cable.protocols.filterMap (fun pr =>
    pr.2.power_delivery.bind (fun pd => (findWatt pd.data).map (fun w => (w : ℚ))))

/-! ## Helper lemmas -/

theorem char_le_iff_toNat (a b : Char) : a ≤ b ↔ a.toNat ≤ b.toNat := by
  rw [Char.le_def, UInt32.le_def, BitVec.le_def]
  rfl

theorem toLower_of_slug_char (c : Char)
    (h : ('a' ≤ c ∧ c ≤ 'z') ∨ ('0' ≤ c ∧ c ≤ '9') ∨ c = '-') :
    Char.toLower c = c := by
  have hn : (97 ≤ c.toNat ∧ c.toNat ≤ 122) ∨ (48 ≤ c.toNat ∧ c.toNat ≤ 57) ∨ c.toNat = 45 := by
    rcases h with ⟨h1, h2⟩ | ⟨h1, h2⟩ | h1
    · exact Or.inl ⟨(char_le_iff_toNat _ _).mp h1, (char_le_iff_toNat _ _).mp h2⟩
    · exact Or.inr (Or.inl ⟨(char_le_iff_toNat _ _).mp h1, (char_le_iff_toNat _ _).mp h2⟩)
    · subst h1; right; right; rfl
  rw [Char.toLower]
  have hno : ¬(c.toNat ≥ 65 ∧ c.toNat ≤ 90) := by omega
  simp [hno]

theorem slug_step_of_slug_char (c : Char)
    (h : ('a' ≤ c ∧ c ≤ 'z') ∨ ('0' ≤ c ∧ c ≤ '9') ∨ c = '-') :
    (if ('a' ≤ c ∧ c ≤ 'z') ∨ ('0' ≤ c ∧ c ≤ '9') then c else '-') = c := by
  rcases h with h | h | h
  · simp [h]
  · simp [h]
  · subst h
    simp

theorem hasSubstr_nil (l : List Char) : hasSubstr [] l = true := by
  cases l with
  | nil => rfl
  | cons c rest => simp [hasSubstr, List.isPrefixOf]

theorem jsIncludes_empty_needle (s : String) : jsIncludes s "" = true := by
  have h : ("" : String).data = [] := rfl
  rw [jsIncludes, h]
  exact hasSubstr_nil s.data

theorem foldl_max_init_le (l : List ℚ) (a : ℚ) : a ≤ l.foldl max a := by
  induction l generalizing a with
  | nil => simp
  | cons x xs ih => exact le_trans (le_max_left a x) (ih (max a x))

theorem foldl_max_le (l : List ℚ) :
    ∀ (a b : ℚ), a ≤ b → (∀ x ∈ l, x ≤ b) → l.foldl max a ≤ b := by
  induction l with
  | nil => intro a b ha _; simpa
  | cons x xs ih =>
    intro a b ha h
    simp only [List.foldl_cons]
    exact ih (max a x) b (max_le ha (h x (List.mem_cons_self _ _)))
      (fun y hy => h y (List.mem_cons_of_mem _ hy))

theorem mem_le_foldl_max (l : List ℚ) :
    ∀ (a x : ℚ), x ∈ l → x ≤ l.foldl max a := by
  induction l with
  | nil => intro a x hx; cases hx
  | cons y ys ih =>
    intro a x hx
    rcases List.mem_cons.mp hx with h | h
    · subst h
      exact le_trans (le_max_right a x) (foldl_max_init_le ys (max a x))
    · exact ih (max a y) x h

theorem foldl_max_eq_or_mem (l : List ℚ) (a : ℚ) : l.foldl max a = a ∨ l.foldl max a ∈ l := by
  induction l generalizing a with
  | nil => exact Or.inl rfl
  | cons x xs ih =>
    simp only [List.foldl_cons]
    rcases ih (max a x) with h | h
    · rcases max_choice a x with hm | hm
      · exact Or.inl (h.trans hm)
      · exact Or.inr (List.mem_cons.mpr (Or.inl (h.trans hm)))
    · exact Or.inr (List.mem_cons.mpr (Or.inr h))

theorem ite_lt_eq_max (a b : ℚ) : (if a < b then b else a) = max a b := by
  rcases le_or_lt b a with h | h
  · rw [if_neg (not_lt.mpr h), max_eq_left h]
  · rw [if_pos h, max_eq_right h.le]

theorem foldl_watt_step (prs : List (String × ProtocolSpec)) :
    ∀ a : ℚ,
      prs.foldl (fun acc pr =>
        match pr.2.power_delivery with
        | none => acc
        | some pd =>
          match findWatt pd.data with
          | none => acc
          | some w => if acc < (w : ℚ) then (w : ℚ) else acc) a
      = (prs.filterMap (fun pr =>
          pr.2.power_delivery.bind (fun pd => (findWatt pd.data).map (fun w => (w : ℚ))))).foldl max a := by
  induction prs with
  | nil => intro a; rfl
  | cons p ps ih =>
    intro a
    simp only [ite_lt_eq_max] at ih ⊢
    cases hpd : p.2.power_delivery with
    | none => simp [List.foldl_cons, List.filterMap_cons, hpd, ih]
    | some pd =>
      cases hw : findWatt pd.data with
      | none => simp [List.foldl_cons, List.filterMap_cons, hpd, hw, ih]
      | some w => simp [List.foldl_cons, List.filterMap_cons, hpd, hw, ih]

theorem powerFromProtocols_eq_foldl (cable : CableSpec) :
    powerFromProtocols cable = (parsedWatts cable).foldl max 0 := by
  rw [powerFromProtocols, parsedWatts]
  exact foldl_watt_step cable.protocols 0

theorem parseAll_eq_none (l : List (String × Option CableSpec))
    (h : ∃ f ∈ l, f.2 = none) : parseAll l = none := by
  induction l with
  | nil => simp at h
  | cons x xs ih =>
    obtain ⟨a, b⟩ := x
    cases b with
    | none => rfl
    | some c =>
      obtain ⟨f, hf, hfn⟩ := h
      rcases List.mem_cons.mp hf with rfl | hmem
      · simp at hfn
      · rw [parseAll, ih ⟨f, hmem, hfn⟩]
        rfl

/-! ## Claims -/

/-- Claim C1, counterexample: for the category directory holding one
well-formed file (`a.json`, parsing to `baseCable`) and one malformed file
(`bad.json`), `loadCategoryData` does NOT return the one-element list
`[baseCable]`: the malformed file throws inside the shared `try`, so the
whole load degrades to the empty list (with exactly one error logged). -/
theorem C1_counterexample :
    loadCategoryData malformedStore "usb" = ([], 1) ∧
    (loadCategoryData malformedStore "usb").1 ≠ [baseCable] := by
  decide

/-- Claim C1 (amended): a malformed JSON file is not dropped individually —
it aborts the whole category load: whenever the directory listing contains a
`.json` file that fails to read or parse, `loadCategoryData` returns the
empty list and logs exactly one error. -/
theorem C1_amended (store : Store) (cat : String)
    (files : List (String × Option CableSpec))
    (hs : store cat = some files)
    (hbad : ∃ f ∈ files, jsEndsWith f.1 ".json" = true ∧ f.2 = none) :
    loadCategoryData store cat = ([], 1) := by
  have hnone : parseAll (files.filter (fun f => jsEndsWith f.1 ".json")) = none := by
    apply parseAll_eq_none
    obtain ⟨f, hf, hend, hfn⟩ := hbad
    exact ⟨f, List.mem_filter.mpr ⟨hf, by simpa using hend⟩, hfn⟩
  simp only [loadCategoryData, hs, hnone]

/-- Witness for C1_amended at a concrete store with a single malformed file. -/
theorem C1_witness : loadCategoryData c1WitnessStore "video" = ([], 1) :=
  C1_amended c1WitnessStore "video" [("x.json", none)] rfl
    ⟨("x.json", none), by simp, by decide, rfl⟩

/-- Claim C2, counterexample: a record whose declared `power_max` is present
with value 0 does not have that value returned — the truthiness test
`if (cable.electrical.power_max)` treats 0 like absent, so the protocol-text
fallback runs and returns 50 (also showing the watt pattern tolerates
whitespace before the W, as in "50 W"). -/
theorem C2_counterexample :
    getNormalizedPowerWatts zeroPowerCable = some 50 ∧
    zeroPowerCable.electrical.power_max = some 0 := by
  decide

/-- Claim C2 (amended): `getNormalizedPowerWatts` returns the declared
`power_max` whenever it is present AND nonzero, regardless of protocol text;
when the field is absent or 0, it returns the maximum watt figure parsed from
the variants' `power_delivery` strings (first integer followed by optional
whitespace and a W, case-insensitively) provided that maximum is positive,
and null otherwise — so both a declared 0 and a parsed 0 collapse into the
"absent" result. -/
theorem C2_amended (c : CableSpec) :
    (∀ p : ℚ, c.electrical.power_max = some p → p ≠ 0 →
        getNormalizedPowerWatts c = some p) ∧
    (c.electrical.power_max = none ∨ c.electrical.power_max = some 0 →
      (∀ w : ℚ, getNormalizedPowerWatts c = some w ↔
          0 < w ∧ w ∈ parsedWatts c ∧ ∀ x ∈ parsedWatts c, x ≤ w) ∧
      (getNormalizedPowerWatts c = none ↔ ∀ x ∈ parsedWatts c, x ≤ 0)) := by
  constructor
  · intro p hp hne
    rw [getNormalizedPowerWatts, hp]
    simp [hne]
  · intro h0
    have hkey : getNormalizedPowerWatts c =
        if 0 < (parsedWatts c).foldl max 0 then some ((parsedWatts c).foldl max 0) else none := by
      rcases h0 with h | h
      · rw [getNormalizedPowerWatts, h, powerFromProtocols_eq_foldl]
      · rw [getNormalizedPowerWatts, h, powerFromProtocols_eq_foldl]
        simp
    constructor
    · intro w
      constructor
      · intro hw
        rw [hkey] at hw
        by_cases hpos : 0 < (parsedWatts c).foldl max 0
        · rw [if_pos hpos] at hw
          have hwF : (parsedWatts c).foldl max 0 = w := Option.some.inj hw
          refine ⟨hwF ▸ hpos, ?_, ?_⟩
          · rcases foldl_max_eq_or_mem (parsedWatts c) 0 with hz | hm
            · exact absurd hpos (by rw [hz]; exact lt_irrefl 0)
            · exact hwF ▸ hm
          · intro x hx
            exact hwF ▸ mem_le_foldl_max (parsedWatts c) 0 x hx
        · rw [if_neg hpos] at hw
          cases hw
      · rintro ⟨hwpos, hmem, hub⟩
        have h1 : w ≤ (parsedWatts c).foldl max 0 := mem_le_foldl_max _ 0 w hmem
        have h2 : (parsedWatts c).foldl max 0 ≤ w := foldl_max_le _ 0 w hwpos.le hub
        have heq : (parsedWatts c).foldl max 0 = w := le_antisymm h2 h1
        rw [hkey, if_pos (heq ▸ hwpos), heq]
    · constructor
      · intro hn x hx
        rw [hkey] at hn
        by_cases hpos : 0 < (parsedWatts c).foldl max 0
        · rw [if_pos hpos] at hn
          cases hn
        · exact (mem_le_foldl_max _ 0 x hx).trans (not_lt.mp hpos)
      · intro hall
        have hle : (parsedWatts c).foldl max 0 ≤ 0 := foldl_max_le _ 0 0 le_rfl hall
        rw [hkey, if_neg (not_lt.mpr hle)]

/-- Witness for C2_amended: a declared nonzero power is returned as is. -/
theorem C2_witness : getNormalizedPowerWatts declaredPowerCable = some 60 :=
  (C2_amended declaredPowerCable).1 60 rfl (by decide)

theorem map_slug_fixed : ∀ l : List Char,
    (∀ c ∈ l, ('a' ≤ c ∧ c ≤ 'z') ∨ ('0' ≤ c ∧ c ≤ '9') ∨ c = '-') →
    (l.map Char.toLower).map
      (fun c => if ('a' ≤ c ∧ c ≤ 'z') ∨ ('0' ≤ c ∧ c ≤ '9') then c else '-') = l := by
  intro l
  induction l with
  | nil => intro _; rfl
  | cons c cs ih =>
    intro h
    simp only [List.map_cons]
    rw [toLower_of_slug_char c (h c (List.mem_cons_self _ _)),
      slug_step_of_slug_char c (h c (List.mem_cons_self _ _)),
      ih (fun x hx => h x (List.mem_cons_of_mem _ hx))]

/-- Claim C3, counterexample: the code replaces each offending character
individually (`/[^a-z0-9]/g` → `-`), so a maximal run is not collapsed:
`slugify "HDMI 2.1!!"` yields a trailing double hyphen, not `"hdmi-2-1"`. -/
theorem C3_counterexample :
    slugify "HDMI 2.1!!" = "hdmi-2-1--" ∧ slugify "HDMI 2.1!!" ≠ "hdmi-2-1" := by
  decide

/-- Claim C3 (amended): `slugify` lower-cases its input and replaces every
single character outside `[a-z0-9]` with one `-` (a run of k offenders
becomes k hyphens, not one); `slugify "USB-C" = "usb-c"` still holds, and
`slugify` fixes (hence is idempotent on) any string of lower-case
alphanumerics and hyphens. -/
theorem C3_amended :
    slugify "USB-C" = "usb-c" ∧
    slugify "HDMI 2.1!!" = "hdmi-2-1--" ∧
    ∀ s : String,
      (∀ c ∈ s.data, ('a' ≤ c ∧ c ≤ 'z') ∨ ('0' ≤ c ∧ c ≤ '9') ∨ c = '-') →
      slugify s = s := by
  refine ⟨by decide, by decide, ?_⟩
  intro s h
  obtain ⟨l⟩ := s
  exact congrArg String.mk (map_slug_fixed l h)

/-- Witness for C3_amended on the already-slugged string "usb-c". -/
theorem C3_witness : slugify "usb-c" = "usb-c" :=
  C3_amended.2.2 "usb-c" (by decide)

/-- Claim C4, counterexample: a record with one protocol variant whose
`data_rate_mbps` is 0 has `getMaxDataRate` equal to 0 even though variants
exist, refuting the "equals 0 iff no variants" direction. -/
theorem C4_counterexample :
    getMaxDataRate zeroRateCable = 0 ∧ zeroRateCable.protocols ≠ [] := by
  decide

/-- Claim C4 (amended): `getMaxDataRate` is ≥ 0, bounds every variant's rate
from above, equals 0 when there are no variants, equals 0 iff every variant's
rate is ≤ 0 (so a zero-rate variant also yields 0), and when nonzero it is
attained by some variant. -/
theorem C4_amended (c : CableSpec) :
    0 ≤ getMaxDataRate c ∧
    (∀ pr ∈ c.protocols, pr.2.data_rate_mbps ≤ getMaxDataRate c) ∧
    (getMaxDataRate c = 0 ↔ ∀ pr ∈ c.protocols, pr.2.data_rate_mbps ≤ 0) ∧
    (c.protocols = [] → getMaxDataRate c = 0) ∧
    (getMaxDataRate c ≠ 0 → ∃ pr ∈ c.protocols, getMaxDataRate c = pr.2.data_rate_mbps) := by
  refine ⟨?_, ?_, ⟨?_, ?_⟩, ?_, ?_⟩
  · exact foldl_max_init_le _ 0
  · intro pr hpr
    exact mem_le_foldl_max _ 0 _ (List.mem_map.mpr ⟨pr, hpr, rfl⟩)
  · intro h0 pr hpr
    have := mem_le_foldl_max (c.protocols.map (fun p => p.2.data_rate_mbps)) 0
      pr.2.data_rate_mbps (List.mem_map.mpr ⟨pr, hpr, rfl⟩)
    rw [getMaxDataRate] at h0
    exact this.trans h0.le
  · intro hall
    refine le_antisymm ?_ (foldl_max_init_le _ 0)
    refine foldl_max_le _ 0 0 le_rfl ?_
    intro x hx
    obtain ⟨pr, hpr, rfl⟩ := List.mem_map.mp hx
    exact hall pr hpr
  · intro hnil
    rw [getMaxDataRate, hnil]
    rfl
  · intro hne
    rcases foldl_max_eq_or_mem (c.protocols.map (fun p => p.2.data_rate_mbps)) 0 with h | h
    · exact absurd h hne
    · obtain ⟨pr, hpr, heq⟩ := List.mem_map.mp h
      exact ⟨pr, hpr, heq.symm⟩

/-- Witness for C4_amended: a record with no variants evaluates to 0. -/
theorem C4_witness : getMaxDataRate baseCable = 0 :=
  (C4_amended baseCable).2.2.2.1 rfl

theorem powerMatchB_some_iff (t : ℚ) (ht : t ≠ 0) (c : CableSpec) :
    powerMatchB (some t) c = true ↔
      ∃ p : ℚ, c.electrical.power_max = some p ∧ p ≠ 0 ∧ t ≤ p := by
  simp only [powerMatchB, if_neg ht]
  cases hpm : c.electrical.power_max with
  | none => simp
  | some p =>
    by_cases hp0 : p = 0
    · subst hp0
      simp
    · simp [hp0, decide_eq_true_eq]

/-- Claim C5, counterexample: `search("100W")` also admits records through
the plain text branch — a record with no declared `power_max` whose feature
string contains "100W" is returned, refuting "includes only records whose
declared electrical power_max is present and ≥ 100". -/
theorem C5_counterexample :
    searchCablesOn [featurePowerCable] "100W" = [featurePowerCable] ∧
    featurePowerCable.electrical.power_max = none := by
  decide

/-- Claim C5 (amended): `search("100W")` includes a record iff the lowered
term "100w" text-matches it (type, full name, aliases, devices, protocol
keys, versions or features) or its declared `power_max` is ≥ 100; records
whose only 100 W hint sits in a `power_delivery` string are excluded, since
that field is not text-searched and the power branch reads only the declared
field. -/
theorem C5_amended (cables : List CableSpec) (c : CableSpec) :
    c ∈ searchCablesOn cables "100W" ↔
      c ∈ cables ∧
        (searchTextMatch c "100w" = true ∨
          ∃ p : ℚ, c.electrical.power_max = some p ∧ 100 ≤ p) := by
  have hterm : jsToLower "100W" = "100w" := by decide
  have hrate : extractRate ("100W" : String).data = none := by decide
  have hpow : extractPower ("100W" : String).data = some 100 := by decide
  rw [searchCablesOn, List.mem_filter, hterm, hrate, hpow]
  simp only [Bool.or_eq_true]
  constructor
  · rintro ⟨hmem, (htext | hr) | hc⟩
    · exact ⟨hmem, Or.inl htext⟩
    · exact absurd hr (by simp [rateMatchB])
    · obtain ⟨p, hpm, _, hle⟩ :=
        (powerMatchB_some_iff 100 (by norm_num) c).mp hc
      exact ⟨hmem, Or.inr ⟨p, hpm, hle⟩⟩
  · rintro ⟨hmem, htext | ⟨p, hpm, hle⟩⟩
    · exact ⟨hmem, Or.inl (Or.inl htext)⟩
    · refine ⟨hmem, Or.inr ?_⟩
      refine (powerMatchB_some_iff 100 (by norm_num) c).mpr ⟨p, hpm, ?_, hle⟩
      have hp : (0 : ℚ) < p := lt_of_lt_of_le (by norm_num) hle
      exact ne_of_gt hp

/-- Witness for C5_amended: a declared 240 W record is found by "100W". -/
theorem C5_witness : highPowerCable ∈ searchCablesOn [highPowerCable] "100W" :=
  (C5_amended [highPowerCable] highPowerCable).mpr
    ⟨by simp, Or.inr ⟨240, rfl, by decide⟩⟩

/-- Claim C6, counterexample: the query "0Gbps" extracts the threshold 0
(regex match, value 0, unit g), yet a record with a variant whose rate is
≥ 0 is not returned: the JavaScript truthiness guard `targetRateMbps ?`
treats an extracted 0 as "no threshold", refuting the claim for that query. -/
theorem C6_counterexample :
    searchCablesOn [smallRateCable] "0Gbps" = [] ∧
    extractRate ("0Gbps" : String).data = some 0 ∧
    smallRateCable.protocols.any (fun pr => decide ((0 : ℚ) ≤ pr.2.data_rate_mbps)) = true := by
  decide

/-- Claim C6 (amended): for every query whose extracted data-rate threshold
is nonzero, `search` includes every catalog record having a protocol variant
with `data_rate_mbps` at or above the threshold, regardless of text content;
an extracted threshold of exactly 0 is falsy and disables the rate branch. -/
theorem C6_amended (cables : List CableSpec) (query : String) (t : ℚ) (c : CableSpec)
    (hext : extractRate query.data = some t) (ht : t ≠ 0)
    (hmem : c ∈ cables)
    (hrate : ∃ pr ∈ c.protocols, t ≤ pr.2.data_rate_mbps) :
    c ∈ searchCablesOn cables query := by
  rw [searchCablesOn]
  refine List.mem_filter.mpr ⟨hmem, ?_⟩
  have hr : rateMatchB (extractRate query.data) c = true := by
    rw [hext]
    simp only [rateMatchB, if_neg ht, List.any_eq_true]
    obtain ⟨pr, hpr, hle⟩ := hrate
    exact ⟨pr, hpr, decide_eq_true hle⟩
  simp [hr]

/-- Witness for C6_amended: "40 Gbps" finds a record with a 40000 Mbps
variant. -/
theorem C6_witness : fastCable ∈ searchCablesOn [fastCable] "40 Gbps" :=
  C6_amended [fastCable] "40 Gbps" 40000 fastCable (by decide) (by decide)
    (by simp)
    (by decide)

/-- Claim C7, counterexample: a record whose notes contain "deprecated" (and
no other keyword anywhere) is NOT classified legacy — the code checks the
notes only for "obsolete"/"legacy"/"phased out" and reserves "deprecated"
for confusion points. -/
theorem C7_counterexample :
    isLegacy deprecatedNotesCable = false ∧
    jsIncludes (jsToLower deprecatedNotesCable.notes) "deprecated" = true := by
  decide

/-- Claim C7 (amended): the renderer classifies a record legacy iff its notes
case-insensitively contain "obsolete", "legacy" or "phased out", or some
confusion point contains "obsolete" or "deprecated" — the two keyword sets
differ between the fields ("deprecated" counts only in confusion points,
"legacy"/"phased out" only in notes). -/
theorem C7_amended (cable : ClientCable) :
    isLegacy cable = true ↔
      (jsIncludes (jsToLower cable.notes) "obsolete" = true ∨
       jsIncludes (jsToLower cable.notes) "legacy" = true ∨
       jsIncludes (jsToLower cable.notes) "phased out" = true ∨
       ∃ p ∈ cable.confusion_points,
         jsIncludes (jsToLower p) "obsolete" = true ∨
         jsIncludes (jsToLower p) "deprecated" = true) := by
  rw [isLegacy]
  simp [List.any_eq_true, or_assoc]

/-- Witness for C7_amended: notes containing "obsolete" classify as legacy. -/
theorem C7_witness : isLegacy obsoleteNotesCable = true :=
  (C7_amended obsoleteNotesCable).mpr (Or.inl (by decide))

/-- Claim C8 (confirmed): `highlightText` escapes first and highlights the
literal term afterwards: "usb" against "USB-C" wraps the matched substring
preserving its case; markup in the text is escaped before matching, the
surrounding escaped text staying unmodified; and the term's regex
metacharacters are neutralized, so "2.1" matches only the literal "2.1" and
not "2x1". -/
theorem C8_theorem :
    highlightText "USB-C" (some "usb") = markOpen ++ "USB" ++ markClose ++ "-C" ∧
    highlightText "<usb>" (some "usb") = "&lt;" ++ markOpen ++ "usb" ++ markClose ++ "&gt;" ∧
    highlightText "2x1 2.1" (some "2.1") = "2x1 " ++ markOpen ++ "2.1" ++ markClose := by
  decide

theorem searchCablesOn_empty_query (l : List CableSpec) :
    searchCablesOn l "" = l := by
  rw [searchCablesOn]
  apply List.filter_eq_self.mpr
  intro c _
  have hjl : jsToLower "" = "" := rfl
  have htm : searchTextMatch c "" = true := by
    rw [searchTextMatch, jsIncludes_empty_needle]
    simp
  simp [hjl, htm]

/-- Claim C9 (confirmed): searching with the empty query returns the whole
catalog in iteration order — the lowered empty term is a substring of every
type field, so the text branch accepts every record and the filter keeps the
list intact. -/
theorem C9_theorem (store : Store) :
    searchCables store "" = (getAllCategories store).flatMap (fun cat => cat.cables) := by
  rw [searchCables]
  exact searchCablesOn_empty_query _

/-- Witness for C9_theorem at a store with no readable directories. -/
theorem C9_witness :
    searchCables emptyStore "" = (getAllCategories emptyStore).flatMap (fun cat => cat.cables) :=
  C9_theorem emptyStore

/-- Claim C10 (confirmed): the power section is rendered through the falsy
guard `cable.max_power ? _ : ''`, so a declared 0 produces the same empty
fragment as an absent value — the two cards are identical strings. -/
theorem C10_theorem (cable : ClientCable) (options : Option CreateCardOptions) :
    createCableCard { cable with max_power := some 0 } options
      = createCableCard { cable with max_power := none } options ∧
    cardPowerHtml (some 0) = "" ∧ cardPowerHtml none = "" := by
  refine ⟨?_, by decide, rfl⟩
  simp [createCableCard, cardPowerHtml, cardBadges, isLegacy, cardCommonUses,
    cardConfusionWarning]

/-- Witness for C10_theorem at a concrete record. -/
theorem C10_witness :
    createCableCard { baseClientCable with max_power := some 0 } none
      = createCableCard { baseClientCable with max_power := none } none :=
  (C10_theorem baseClientCable none).1
